import Mathlib

/-!
Verification development for the VoiceMart query-processing pipeline
(`services/query-processor/app/processor.py`).

The pipeline is shallowly embedded: Python strings become lists of Unicode
code points (`Txt`), the slot dictionary becomes a record with one field per
recognized slot name, every regex of the source is hand-translated into an
executable matcher that follows Python `re` semantics (leftmost search,
alternation order, greedy and lazy quantifiers, word boundaries,
case-insensitive flag), and the two external enrichment collaborators are
modelled by their interface: the spaCy tagger is absent under the default
configuration (`QP_USE_SPACY=0`, so `_nlp is None` and `_ner_pass` is a
no-op), and the generative clarifier's validated output
(`_validate_structured`) is an explicit parameter of `processQuery`.
Lexicons and claim inputs are ASCII, so `str.lower`, `str.strip`, `\w`,
`\s` and `\d` are modelled by their ASCII behaviour.  Python floats are
modelled as rationals: every numeric value reached by the claims is a small
decimal, exact in both representations, and `round(c, 2)` is the identity
on the only confidences produced (0.3, 0.8, 0.9).  The diagnostic slot keys
(`__llm_used`, `__llm_model`, `__llm_raw`, `__llm_error`) are metadata, not
semantic slots (spec section 6), and are omitted from the record.
-/

/-- A Python `str`, as its list of Unicode code points. -/
abbrev Txt := List Nat

/-- Code points of a Lean string literal. -/
def String.tx (s : String) : Txt := s.data.map Char.toNat

/-- ASCII `str.lower` on one code point. -/
def lowc (c : Nat) : Nat := if 65 ≤ c ∧ c ≤ 90 then c + 32 else c

/-- ASCII `str.lower` on a text. -/
def lowt (t : Txt) : Txt := t.map lowc

/-- Regex `\w` (ASCII): letters, digits, underscore. -/
def isWordc (c : Nat) : Bool :=
  (48 ≤ c && c ≤ 57) || (65 ≤ c && c ≤ 90) || (97 ≤ c && c ≤ 122) || c == 95

/-- Regex `\s` (ASCII): space, tab, LF, VT, FF, CR. -/
def isWsc (c : Nat) : Bool :=
  c == 32 || c == 9 || c == 10 || c == 11 || c == 12 || c == 13

/-- Regex `\d` (ASCII). -/
def isDigitc (c : Nat) : Bool := 48 ≤ c && c ≤ 57

/-- Word character or whitespace: the character class `[\w\s]`. -/
def isWordSpace (c : Nat) : Bool := isWordc c || isWsc c

/-- Case-insensitive literal match: strip pattern `p` (given lowercase or in
any case; comparison is through `lowc`) from the front of the input,
returning the rest on success. -/
def dropCI : Txt → Txt → Option Txt
  | [], rest => some rest
  | _, [] => none
  | p :: ps, c :: cs => if lowc c = lowc p then dropCI ps cs else none

/-- Length of the maximal leading whitespace run (`\s*` by maximal munch). -/
def wsRun : Txt → Nat
  | c :: cs => if isWsc c then wsRun cs + 1 else 0
  | [] => 0

/-- Drop the maximal leading whitespace run. -/
def dropWs (t : Txt) : Txt := t.drop (wsRun t)

/-- `[n, n-1, …, 1]`: candidate lengths for a greedy `\s+` (or `\d+`, `\w+`)
that backtracks from the maximal munch down to one character. -/
def descRange (n : Nat) : List Nat := (List.range n).map (fun j => n - j)

/-- `[n, n-1, …, 0]`: candidate lengths for a greedy `\s*`. -/
def descRange0 (n : Nat) : List Nat := (List.range (n + 1)).map (fun j => n - j)

/-- First alternative that yields a result (regex alternation order). -/
def firstSome : List α → (α → Option β) → Option β
  | [], _ => none
  | a :: as, f => match f a with | some b => some b | none => firstSome as f

/-- `str.strip()` on ASCII whitespace: used by `_to_float`, `_to_int`,
`_currency_code`, `_normalize_product` and `_sanitize`. -/
def stript (t : Txt) : Txt := ((dropWs ((dropWs t).reverse)).reverse)

/-- Word-boundary test on the left of a position, given the previous
character (none at the start of the text). -/
def boundaryL (prev : Option Nat) : Bool :=
  match prev with | none => true | some p => !isWordc p

/-- Word-boundary test on the right: the following text must not begin with
a word character. -/
def boundaryR (rest : Txt) : Bool :=
  match rest with | [] => true | c :: _ => !isWordc c

/-! ### `_sanitize` (processor.py lines 117-122) -/

/-- Control characters replaced by the first substitution of `_sanitize`:
`[\x00-\x08\x0B\x0C\x0E-\x1F]`. -/
def ctrlc (c : Nat) : Bool := c ≤ 8 || c == 11 || c == 12 || (14 ≤ c && c ≤ 31)

/-- Injection tokens of `_sanitize`'s second substitution,
`(?:```|</?script>|@everyone|@here)` with `re.I`, in alternation order
(the optional `/` of `</?script>` is greedy, so the closing tag variant is
tried first). -/
def injTokens : List Txt :=
  ["```".tx, "</script>".tx, "<script>".tx, "@everyone".tx, "@here".tx]

/-- Find an injection token at the head of the text. -/
def findInj (l : Txt) : Option Txt := firstSome injTokens (fun tok => dropCI tok l)

/-- `re.sub` of the injection-token pattern by a single space, scanning left
to right, continuing after each replacement (non-overlapping).  The fuel is
structural and `t.length` is always sufficient: every step consumes at
least one character. -/
def subInjF : Nat → Txt → Txt
  | 0, t => t
  | fuel + 1, t =>
      match t with
      | [] => []
      | c :: cs =>
          match findInj (c :: cs) with
          | some rest => 32 :: subInjF fuel rest
          | none => c :: subInjF fuel cs

def subInj (t : Txt) : Txt := subInjF t.length t

/-- `_sanitize`: truncate to 600 code points, blank control characters,
blank injection tokens, then strip surrounding whitespace. -/
def sanitize (text : Txt) : Txt :=
  stript (subInj ((text.take 600).map (fun c => if ctrlc c then 32 else c)))

/-! ### `_fix_terms` (lines 146-150, 209-212) -/

/-- One word-bounded case-insensitive substitution pass
(`re.sub(r"\bPAT\b", REP, text, flags=re.I)`), carrying the character that
precedes the current position in the original text for the left boundary;
fueled structurally, `t.length` sufficing. -/
def subWordF (pat rep : Txt) : Nat → Option Nat → Txt → Txt
  | 0, _, t => t
  | fuel + 1, prev, t =>
      match t with
      | [] => []
      | c :: cs =>
          match dropCI pat (c :: cs) with
          | some rest =>
              if boundaryL prev && boundaryR rest then
                rep ++ subWordF pat rep fuel ((c :: cs).take pat.length).getLast? rest
              else c :: subWordF pat rep fuel (some c) cs
          | none => c :: subWordF pat rep fuel (some c) cs

def subWord (pat rep : Txt) (t : Txt) : Txt := subWordF pat rep t.length none t

/-- `_fix_terms`: the three speech-to-text corrections of `TERM_FIXES`,
applied as successive whole-string substitutions in table order. -/
def fixTerms (t : Txt) : Txt :=
  subWord ("cocks".tx) ("coke".tx)
    (subWord ("mellow".tx) ("milo".tx)
      (subWord ("shows".tx) ("shoes".tx) t))

/-! ### `_to_float` and `_to_int` (lines 214-236) -/

/-- Numeric value of a digit string (most significant first). -/
def natOfDigits (t : Txt) : Nat := t.foldl (fun acc c => acc * 10 + (c - 48)) 0

/-- `float(s)` on the strings reachable here (digits and at most one dot;
the price regexes only capture `[\d,.]+` material and commas are removed
first), split into the digit value and the number of fractional places.
Returns `none` exactly when Python would raise `ValueError`: no digit at
all, or more than one dot. -/
def parseDecParts (t : Txt) : Option (Nat × Nat) :=
  let intPart := t.takeWhile (fun c => c ≠ 46)
  let rest := t.dropWhile (fun c => c ≠ 46)
  match rest with
  | [] =>
      if intPart ≠ [] ∧ intPart.all isDigitc then some (natOfDigits intPart, 0) else none
  | 46 :: frac =>
      if 46 ∈ frac then none
      else if (intPart ++ frac) ≠ [] ∧ (intPart ++ frac).all isDigitc then
        some (natOfDigits (intPart ++ frac), frac.length)
      else none
  | _ => none

/-- The parsed value as an exact rational (`d` fractional places divide the
digit value by `10 ^ d`; built with `mkRat` so that it evaluates). -/
def parseDec (t : Txt) : Option ℚ :=
  (parseDecParts t).map (fun p => mkRat p.1 (10 ^ p.2))

/-- `_to_float`: `None`/empty gives `None`; else strip, lower, remove all
commas, then a trailing `k` multiplies by 1 000 and a trailing `m` by
1 000 000; parse failures are swallowed (`except: return None`). -/
def toFloat (s : Txt) : Option ℚ :=
  if s = [] then none
  else
    let s1 := (lowt (stript s)).filter (fun c => c ≠ 44)
    if s1.getLast? = some 107 then
      (parseDecParts s1.dropLast).map (fun p => mkRat (p.1 * 1000) (10 ^ p.2))
    else if s1.getLast? = some 109 then
      (parseDecParts s1.dropLast).map (fun p => mkRat (p.1 * 1000000) (10 ^ p.2))
    else parseDec s1

/-- `WORD_NUM` (lines 127-131). -/
def wordNum : List (Txt × Int) :=
  [("a".tx, 1), ("an".tx, 1), ("one".tx, 1), ("two".tx, 2), ("three".tx, 3),
   ("four".tx, 4), ("five".tx, 5), ("six".tx, 6), ("seven".tx, 7),
   ("eight".tx, 8), ("nine".tx, 9), ("ten".tx, 10),
   ("dozen".tx, 12), ("pair".tx, 2), ("pairs".tx, 2)]

/-- `int(s)` on the `\d+|\w+` material reachable here: an ASCII digit string,
optionally with single underscores between digits (PEP 515); anything else
raises, which `_to_int` turns into `None`. -/
def pyInt (t : Txt) : Option Int :=
  if t ≠ [] ∧ t.all (fun c => isDigitc c || c == 95) ∧
      t.head? ≠ some 95 ∧ t.getLast? ≠ some 95 ∧
      ¬ (t.zip t.tail).any (fun p => p.1 == 95 && p.2 == 95) then
    some (natOfDigits (t.filter (fun c => c ≠ 95)))
  else none

/-- `_to_int`: `None`/empty gives `None`; else strip, lower, look the word up
in `WORD_NUM`, else try `int(...)`, swallowing failures. -/
def toInt (s : Txt) : Option Int :=
  if s = [] then none
  else
    let s1 := lowt (stript s)
    match wordNum.lookup s1 with
    | some n => some n
    | none => pyInt s1

/-! ### Attribute extractors: `COLOR_RE`, `SIZE_RE`, `BRAND_RE`
(lexicons lines 133-136, compiled with surrounding `\b…\b` lines 190-192) -/

/-- Scan the text left to right; at each position with a left word boundary,
try the position matchers in alternation order (each one checks its own
right boundary); the first success is the leftmost match, as in
`re.search`. -/
def scanAlts (alts : List (Txt → Option Txt)) : Option Nat → Txt → Option Txt
  | _, [] => none
  | prev, c :: cs =>
      match (if boundaryL prev then firstSome alts (fun f => f (c :: cs)) else none) with
      | some cap => some cap
      | none => scanAlts alts (some c) cs

/-- A literal word alternative with its right boundary; captures the matched
span of the original text (case preserved, as `m.group(1)` does). -/
def litAlt (w : Txt) (l : Txt) : Option Txt :=
  match dropCI w l with
  | some rest => if boundaryR rest then some (l.take w.length) else none
  | none => none

/-- `COLORS` (line 134), in alternation order. -/
def colorWords : List Txt :=
  ["black".tx, "white".tx, "red".tx, "blue".tx, "green".tx, "yellow".tx,
   "pink".tx, "purple".tx, "silver".tx, "gold".tx, "gray".tx, "grey".tx,
   "brown".tx, "beige".tx, "navy".tx, "orange".tx]

/-- `BRANDS` (line 136), in alternation order. -/
def brandWords : List Txt :=
  ["nike".tx, "adidas".tx, "puma".tx, "reebok".tx, "samsung".tx, "apple".tx,
   "sony".tx, "dell".tx, "hp".tx, "lenovo".tx, "milo".tx, "nestle".tx,
   "coke".tx, "pepsi".tx, "asus".tx, "acer".tx, "msi".tx]

/-- `COLOR_RE.search`: first word-bounded color, captured text. -/
def colorSearch (t : Txt) : Option Txt := scanAlts (colorWords.map litAlt) none t

/-- `BRAND_RE.search`: first word-bounded brand, captured text. -/
def brandSearch (t : Txt) : Option Txt := scanAlts (brandWords.map litAlt) none t

/-- Length of the maximal leading digit run. -/
def digitRun (t : Txt) : Nat := (t.takeWhile isDigitc).length

/-- `SIZE_RE` alternative `\d+[x×]\d+` (dimension), with right boundary. -/
def sizeDimAlt (l : Txt) : Option Txt :=
  let d1 := digitRun l
  if d1 = 0 then none
  else
    match l.drop d1 with
    | c :: rest =>
        if c = 120 ∨ c = 215 then
          let d2 := digitRun rest
          if d2 = 0 then none
          else if boundaryR (rest.drop d2) then some (l.take (d1 + 1 + d2)) else none
        else none
    | [] => none

/-- `SIZE_RE` alternative `\d+(\.\d+)?(cm|mm|in|inch|inches)`: digits, an
optional (greedy) fraction, then the unit alternation, each unit checked
with the trailing boundary and falling through on failure. -/
def sizeUnitAlt (l : Txt) : Option Txt :=
  let d1 := digitRun l
  if d1 = 0 then none
  else
    let unitsAt := fun (consumed : Nat) (r : Txt) =>
      firstSome (["cm".tx, "mm".tx, "in".tx, "inch".tx, "inches".tx]) (fun u =>
        match dropCI u r with
        | some rest => if boundaryR rest then some (l.take (consumed + u.length)) else none
        | none => none)
    let withFrac :=
      match l.drop d1 with
      | 46 :: r2 =>
          let d2 := digitRun r2
          if d2 = 0 then none else unitsAt (d1 + 1 + d2) (r2.drop d2)
      | _ => none
    match withFrac with
    | some cap => some cap
    | none => unitsAt d1 (l.drop d1)

/-- `SIZE_RE.search` (pattern `SIZES`, line 135): the word alternatives in
order, then the two numeric shapes. -/
def sizeSearch (t : Txt) : Option Txt :=
  scanAlts
    ((["xxs".tx, "xs".tx, "s".tx, "m".tx, "l".tx, "xl".tx, "xxl".tx,
       "xxxl".tx, "small".tx, "medium".tx, "large".tx].map litAlt)
      ++ [sizeDimAlt, sizeUnitAlt]) none t

/-! ### Price extractors (lines 152, 193-204) -/

/-- `CURRENCY_SYMBOLS` = `[\$£€]|Rs\.?|LKR|USD|EUR|GBP|rs|lkr|usd|eur|gbp`
(case-insensitive), in alternation order; the greedy `\.?` of `Rs\.?` makes
the dotted variant come first.  The trailing lowercase duplicates are
redundant under `re.I` but harmless. -/
def curAlts : List Txt :=
  ["$".tx, "£".tx, "€".tx, "Rs.".tx, "Rs".tx, "LKR".tx, "USD".tx, "EUR".tx,
   "GBP".tx, "rs".tx, "lkr".tx, "usd".tx, "eur".tx, "gbp".tx]

/-- The character class `[\d,.]`. -/
def numClass (c : Nat) : Bool := isDigitc c || c == 44 || c == 46

/-- The value group `(?P<val>[\d,.]+(?:[km])?)`: maximal `[\d,.]` run (at
least one character), then one optional `k`/`m` (case-insensitive).
Returns the captured text and the rest. -/
def valMatch (l : Txt) : Option (Txt × Txt) :=
  let n := (l.takeWhile numClass).length
  if n = 0 then none
  else
    match l.drop n with
    | c :: cs =>
        if lowc c = 107 ∨ lowc c = 109 then some (l.take (n + 1), cs)
        else some (l.take n, l.drop n)
    | [] => some (l.take n, [])

/-- `(?P<cur>…)?\s*(?P<val>…)` after a price keyword: try each currency
alternative (falling back to the next, then to the absent branch, when the
value fails to match afterwards), then the value.  `l` is the text after
the keyword's `\s*`. -/
def curValTail (l : Txt) : Option (Option Txt × Txt) :=
  match firstSome curAlts (fun w =>
      match dropCI w l with
      | some r2 => (valMatch (dropWs r2)).map (fun p => (some (l.take w.length), p.1))
      | none => none) with
  | some res => some res
  | none => (valMatch l).map (fun p => ((none : Option Txt), p.1))

/-- `PRICE_UNDER_RE` keyword `(?:under|below|less\s*than)` at the current
position (alternatives are mutually exclusive here). -/
def underKw (l : Txt) : Option Txt :=
  match dropCI ("under".tx) l with
  | some r => some r
  | none =>
      match dropCI ("below".tx) l with
      | some r => some r
      | none =>
          match dropCI ("less".tx) l with
          | some r => dropCI ("than".tx) (dropWs r)
          | none => none

/-- `PRICE_OVER_RE` keyword `(?:over|above|more\s*than|at\s*least)`. -/
def overKw (l : Txt) : Option Txt :=
  match dropCI ("over".tx) l with
  | some r => some r
  | none =>
      match dropCI ("above".tx) l with
      | some r => some r
      | none =>
          match dropCI ("more".tx) l with
          | some r => dropCI ("than".tx) (dropWs r)
          | none =>
              match dropCI ("at".tx) l with
              | some r => dropCI ("least".tx) (dropWs r)
              | none => none

/-- Leftmost-scan combinator for an unanchored pattern given its
at-this-position matcher. -/
def scanFor (f : Txt → Option α) : Txt → Option α
  | [] => f []
  | c :: cs =>
      match f (c :: cs) with
      | some r => some r
      | none => scanFor f cs

/-- `PRICE_UNDER_RE.search`: captured `(cur, val)` groups of the leftmost
match. -/
def priceUnder (t : Txt) : Option (Option Txt × Txt) :=
  scanFor (fun l => (underKw l).bind (fun r => curValTail (dropWs r))) t

/-- `PRICE_OVER_RE.search`. -/
def priceOver (t : Txt) : Option (Option Txt × Txt) :=
  scanFor (fun l => (overKw l).bind (fun r => curValTail (dropWs r))) t

/-- `(?:and|to|-)` separator of `PRICE_BETWEEN_RE`. -/
def sepMatch (l : Txt) : Option Txt :=
  match dropCI ("and".tx) l with
  | some r => some r
  | none =>
      match dropCI ("to".tx) l with
      | some r => some r
      | none => dropCI ("-".tx) l

/-- `(?P<cur2>…)?\s*(?P<max>…)` tail of `PRICE_BETWEEN_RE`. -/
def betweenTail2 (l : Txt) : Option (Option Txt × Txt) := curValTail l

/-- `(?P<min>…)\s*(?:and|to|-)\s*(?P<cur2>…)?\s*(?P<max>…)` after the
optional first currency. -/
def betweenTail1 (l : Txt) : Option (Txt × Option Txt × Txt) :=
  match valMatch l with
  | some (v1, r4) =>
      match sepMatch (dropWs r4) with
      | some r6 => (betweenTail2 (dropWs r6)).map (fun p => (v1, p.1, p.2))
      | none => none
  | none => none

/-- `PRICE_BETWEEN_RE` at a position: `(?:between|from)\s*(?P<cur1>…)?\s*…`,
with the first-currency alternatives falling back to the absent branch. -/
def betweenAt (l : Txt) : Option (Option Txt × Txt × Option Txt × Txt) :=
  let kw :=
    match dropCI ("between".tx) l with
    | some r => some r
    | none => dropCI ("from".tx) l
  match kw with
  | none => none
  | some r =>
      let r1 := dropWs r
      match firstSome curAlts (fun w =>
          match dropCI w r1 with
          | some r2 =>
              (betweenTail1 (dropWs r2)).map (fun p => (some (r1.take w.length), p.1, p.2.1, p.2.2))
          | none => none) with
      | some res => some res
      | none => (betweenTail1 r1).map (fun p => ((none : Option Txt), p.1, p.2.1, p.2.2))

/-- `PRICE_BETWEEN_RE.search`: `(cur1, min, cur2, max)` captures. -/
def priceBetween (t : Txt) : Option (Option Txt × Txt × Option Txt × Txt) :=
  scanFor betweenAt t

/-! ### Intent patterns (`INTENT_PATTERNS`, lines 164-185) and `_detect` -/

/-- `greeting` pattern
`^(hi|hello|hey|greetings|good\s*(morning|afternoon|evening))\b` (`re.I`),
anchored at the start; only its boolean outcome is used (its groups are
positional, so `m.groupdict()` is empty). -/
def greetingMatch (t : Txt) : Bool :=
  (firstSome ["hi".tx, "hello".tx, "hey".tx, "greetings".tx] (fun w =>
      match dropCI w t with
      | some rest => if boundaryR rest then some () else none
      | none => none)).isSome
  || (match dropCI ("good".tx) t with
      | some r =>
          (firstSome ["morning".tx, "afternoon".tx, "evening".tx] (fun w =>
            match dropCI w (dropWs r) with
            | some rest => if boundaryR rest then some () else none
            | none => none)).isSome
      | none => false)

/-- The verb alternation of `search_product`
`(?:find|search|show|looking\s*for|need|want|get)`; the alternatives are
pairwise exclusive at any position, so no cross-alternative backtracking
is possible. -/
def searchVerb (l : Txt) : Option Txt :=
  match dropCI ("find".tx) l with
  | some r => some r
  | none =>
  match dropCI ("search".tx) l with
  | some r => some r
  | none =>
  match dropCI ("show".tx) l with
  | some r => some r
  | none =>
  match dropCI ("looking".tx) l with
  | some r =>
      (match dropCI ("for".tx) (dropWs r) with
       | some r2 => some r2
       | none =>
          match dropCI ("need".tx) l with
          | some r3 => some r3
          | none =>
          match dropCI ("want".tx) l with
          | some r3 => some r3
          | none => dropCI ("get".tx) l)
  | none =>
  match dropCI ("need".tx) l with
  | some r => some r
  | none =>
  match dropCI ("want".tx) l with
  | some r => some r
  | none => dropCI ("get".tx) l

/-- Terminator `(?:\s+between|under|over|from|and|\s*$)` of the
`search_product` pattern (note only `between` demands leading whitespace);
boolean, since it captures nothing. -/
def searchTerm (l : Txt) : Bool :=
  (decide (1 ≤ wsRun l) && (dropCI ("between".tx) (dropWs l)).isSome)
  || (dropCI ("under".tx) l).isSome
  || (dropCI ("over".tx) l).isSome
  || (dropCI ("from".tx) l).isSome
  || (dropCI ("and".tx) l).isSome
  || decide (dropWs l = [])

/-- After a candidate product span: `(?:\s+(?P<brand>BRANDS))?` then the
terminator.  The optional brand group is tried first (greedy `?`); its
`\s+` can only take the whole whitespace run because brands begin with a
letter; the brand alternatives are prefix-free, so at most one applies, and
if the terminator then fails the absent branch is tried.  Returns the brand
capture on success. -/
def searchAfterProduct (l : Txt) : Option (Option Txt) :=
  match
    (if 1 ≤ wsRun l then
      match firstSome brandWords (fun w =>
          (dropCI w (dropWs l)).map (fun rest => (w, rest))) with
      | some (w, rest) =>
          if searchTerm rest then some (some ((dropWs l).take w.length)) else none
      | none => none
     else none) with
  | some b => some b
  | none => if searchTerm l then some ((none : Option Txt)) else none

/-- The lazy product group `(?P<product>[\w\s]+?)` of `search_product`:
grow the span one `[\w\s]` character at a time (shortest first), trying
the optional brand and the terminator after each step.  `acc` is the
reversed span matched so far. -/
def searchProdLoop (acc : Txt) : Txt → Option (Txt × Option Txt)
  | [] => none
  | c :: cs =>
      if isWordSpace c then
        match searchAfterProduct cs with
        | some b => some ((c :: acc).reverse, b)
        | none => searchProdLoop (c :: acc) cs
      else none

/-- `search_product` after the verb: `\s+(?:me\s+)?` then the product loop.
Both `\s+` are greedy with backtracking over their length; the optional
`me\s+` is tried before its absence. -/
def searchFromVerbRest (r1 : Txt) : Option (Txt × Option Txt) :=
  firstSome (descRange (wsRun r1)) (fun k =>
    let rest := r1.drop k
    match
      (match dropCI ("me".tx) rest with
       | some r2 =>
           firstSome (descRange (wsRun r2)) (fun j => searchProdLoop [] (r2.drop j))
       | none => none) with
    | some res => some res
    | none => searchProdLoop [] rest)

/-- `search_product` match attempt at one position. -/
def searchAt (l : Txt) : Option (Txt × Option Txt) :=
  (searchVerb l).bind searchFromVerbRest

/-- `INTENT_PATTERNS["search_product"].search`: leftmost match, returning
the `product` and optional `brand` captures. -/
def searchMatch (t : Txt) : Option (Txt × Option Txt) := scanFor searchAt t

/-- `UOMS` (line 133) in alternation order, each `s?` expanded greedily
(plural first). -/
def uomAlts : List Txt :=
  ["packs".tx, "pack".tx, "packets".tx, "packet".tx, "pieces".tx, "piece".tx,
   "pcs".tx, "pc".tx, "bottles".tx, "bottle".tx, "units".tx, "unit".tx,
   "cans".tx, "can".tx, "bags".tx, "bag".tx, "boxes".tx, "box".tx,
   "kg".tx, "g".tx, "lb".tx, "lbs".tx, "ml".tx, "l".tx,
   "liters".tx, "liter".tx, "litres".tx, "litre".tx]

/-- `cart|basket` at the current position. -/
def cartOrBasket (l : Txt) : Bool :=
  (dropCI ("cart".tx) l).isSome || (dropCI ("basket".tx) l).isSome

/-- The lookahead `(?=\s+to\s+(?:my\s*)?(?:cart|basket))` of `add_to_cart`.
Every inner `\s+`/`\s*` is followed by a letter, so maximal munch is exact;
the optional `my\s*` falls back to its absence. -/
def addLook (l : Txt) : Bool :=
  decide (1 ≤ wsRun l) &&
  (match dropCI ("to".tx) (dropWs l) with
   | some r =>
      decide (1 ≤ wsRun r) &&
      (let r2 := dropWs r
       (match dropCI ("my".tx) r2 with
        | some rm => cartOrBasket (dropWs rm)
        | none => false) || cartOrBasket r2)
   | none => false)

/-- The lazy product group of `add_to_cart`, checked against the lookahead
after each one-character extension. -/
def addProdLoop (acc : Txt) : Txt → Option Txt
  | [] => none
  | c :: cs =>
      if isWordSpace c then
        if addLook cs then some (c :: acc).reverse
        else addProdLoop (c :: acc) cs
      else none

/-- `(?:of\s+)?` then the product group: the present branch first, its `\s+`
greedy with backtracking. -/
def ofPhase (l : Txt) : Option Txt :=
  match
    (match dropCI ("of".tx) l with
     | some r => firstSome (descRange (wsRun r)) (fun j => addProdLoop [] (r.drop j))
     | none => none) with
  | some p => some p
  | none => addProdLoop [] l

/-- `\s*(?:of\s+)?(?P<product>…)`: the `\s*` before `of` backtracks from the
maximal run down to zero. -/
def postUom (l : Txt) : Option Txt :=
  firstSome (descRange0 (wsRun l)) (fun j => ofPhase (l.drop j))

/-- `(?P<uom>UOMS)?` then the rest: each unit alternative in order (falling
through when the remainder fails), then the absent branch. -/
def uomPhase (l : Txt) : Option (Option Txt × Txt) :=
  match firstSome uomAlts (fun w =>
      match dropCI w l with
      | some rest => (postUom rest).map (fun p => (some (l.take w.length), p))
      | none => none) with
  | some res => some res
  | none => (postUom l).map (fun p => ((none : Option Txt), p))

/-- `\s*` between the quantity and the unit, backtracking. -/
def preUom (l : Txt) : Option (Option Txt × Txt) :=
  firstSome (descRange0 (wsRun l)) (fun j => uomPhase (l.drop j))

/-- `(?P<qty_num>\d+|\w+)?`: greedy digits first (backtracking over length),
then a greedy word run, then the absent branch. -/
def qtyPhase (l : Txt) : Option (Option Txt × Option Txt × Txt) :=
  let d := (l.takeWhile isDigitc).length
  match firstSome (descRange d) (fun k =>
      (preUom (l.drop k)).map (fun p => (some (l.take k), p.1, p.2))) with
  | some res => some res
  | none =>
      let w := (l.takeWhile isWordc).length
      match firstSome (descRange w) (fun k =>
          (preUom (l.drop k)).map (fun p => (some (l.take k), p.1, p.2))) with
      | some res => some res
      | none => (preUom l).map (fun p => ((none : Option Txt), p.1, p.2))

/-- `(?:add|put|place)` (pairwise exclusive alternatives). -/
def addVerb (l : Txt) : Option Txt :=
  match dropCI ("add".tx) l with
  | some r => some r
  | none =>
      match dropCI ("put".tx) l with
      | some r => some r
      | none => dropCI ("place".tx) l

/-- `add_to_cart` match attempt at one position: verb, greedy `\s+` with
backtracking, then quantity/unit/of/product with the cart lookahead. -/
def addAt (l : Txt) : Option (Option Txt × Option Txt × Txt) :=
  (addVerb l).bind (fun r =>
    firstSome (descRange (wsRun r)) (fun k => qtyPhase (r.drop k)))

/-- `INTENT_PATTERNS["add_to_cart"].search`: `(qty_num, uom, product)`
captures of the leftmost match. -/
def addMatch (t : Txt) : Option (Option Txt × Option Txt × Txt) := scanFor addAt t

/-- Tail `\s*(?:from\s*(?:my\s*)?(?:cart|basket))` of `remove_from_cart`;
the leading `\s*` backtracks (only the full run can succeed, `from` starting
with a letter, but the search is kept honest). -/
def removeTail (l : Txt) : Bool :=
  (descRange0 (wsRun l)).any (fun j =>
    match dropCI ("from".tx) (l.drop j) with
    | some r =>
        let r2 := dropWs r
        (match dropCI ("my".tx) r2 with
         | some rm => cartOrBasket (dropWs rm)
         | none => false) || cartOrBasket r2
    | none => false)

/-- Lazy product group of `remove_from_cart`. -/
def removeProdLoop (acc : Txt) : Txt → Option Txt
  | [] => none
  | c :: cs =>
      if isWordSpace c then
        if removeTail cs then some (c :: acc).reverse
        else removeProdLoop (c :: acc) cs
      else none

/-- `(?:remove|delete|take\s*out)` (pairwise exclusive). -/
def removeVerb (l : Txt) : Option Txt :=
  match dropCI ("remove".tx) l with
  | some r => some r
  | none =>
      match dropCI ("delete".tx) l with
      | some r => some r
      | none =>
          match dropCI ("take".tx) l with
          | some r => dropCI ("out".tx) (dropWs r)
          | none => none

/-- `remove_from_cart` at one position:
`(?:remove|delete|take\s*out)\s+(?P<product>[\w\s]+?)\s*(?:from…)`. -/
def removeAt (l : Txt) : Option Txt :=
  (removeVerb l).bind (fun r =>
    firstSome (descRange (wsRun r)) (fun k => removeProdLoop [] (r.drop k)))

/-- `INTENT_PATTERNS["remove_from_cart"].search`: `product` capture. -/
def removeMatch (t : Txt) : Option Txt := scanFor removeAt t

/-- `\s*(?:my\s*)?(?:cart|basket)` tail shared by `show_cart`. -/
def cartTail (l : Txt) : Bool :=
  let r2 := dropWs l
  (match dropCI ("my".tx) r2 with
   | some rm => cartOrBasket (dropWs rm)
   | none => false) || cartOrBasket r2

/-- `show_cart` head `(?:show|view|display|what'?s?\s*in)`: the `what`
variant expands its greedy `'?` and `s?` into four ordered branches, each
falling through to the next when the tail fails. -/
def showCartAt (l : Txt) : Bool :=
  (match dropCI ("show".tx) l with
   | some r => cartTail r
   | none => false)
  || (match dropCI ("view".tx) l with
      | some r => cartTail r
      | none => false)
  || (match dropCI ("display".tx) l with
      | some r => cartTail r
      | none => false)
  || (match dropCI ("what".tx) l with
      | some r =>
          (match dropCI ("'s".tx) r with
           | some r2 =>
               (match dropCI ("in".tx) (dropWs r2) with
                | some r3 => cartTail r3
                | none => false)
           | none => false)
          || (match dropCI ("'".tx) r with
              | some r2 =>
                  (match dropCI ("in".tx) (dropWs r2) with
                   | some r3 => cartTail r3
                   | none => false)
              | none => false)
          || (match dropCI ("s".tx) r with
              | some r2 =>
                  (match dropCI ("in".tx) (dropWs r2) with
                   | some r3 => cartTail r3
                   | none => false)
              | none => false)
          || (match dropCI ("in".tx) (dropWs r) with
              | some r3 => cartTail r3
              | none => false)
      | none => false)

/-- `INTENT_PATTERNS["show_cart"].search` as a boolean (no groups). -/
def showCartMatch (t : Txt) : Bool := (scanFor (fun l => if showCartAt l then some () else none) t).isSome

/-- `checkout` pattern
`(?:checkout|proceed\s*to\s*checkout|place\s*order|buy\s*now)` at one
position (boolean; `proceed\s*to\s*checkout` is subsumed by `checkout` for
matching purposes but kept). -/
def checkoutAt (l : Txt) : Bool :=
  (dropCI ("checkout".tx) l).isSome
  || (match dropCI ("proceed".tx) l with
      | some r =>
          (match dropCI ("to".tx) (dropWs r) with
           | some r2 => (dropCI ("checkout".tx) (dropWs r2)).isSome
           | none => false)
      | none => false)
  || (match dropCI ("place".tx) l with
      | some r => (dropCI ("order".tx) (dropWs r)).isSome
      | none => false)
  || (match dropCI ("buy".tx) l with
      | some r => (dropCI ("now".tx) (dropWs r)).isSome
      | none => false)

/-- `INTENT_PATTERNS["checkout"].search` as a boolean. -/
def checkoutMatch (t : Txt) : Bool := (scanFor (fun l => if checkoutAt l then some () else none) t).isSome

/-! ### `_normalize_product`, `_strip_price_phrases`, `_infer_category`,
`_currency_code` (lines 238-260) -/

/-- One scanning pass of
`re.sub(r"\b(find|search|show|get|need|want|looking\s+for)\b", "", text)`:
the alternatives are pairwise exclusive at a position; each checks the
trailing boundary. -/
def verbDeleteAt (l : Txt) : Option Txt :=
  match dropCI ("find".tx) l with
  | some rest => if boundaryR rest then some rest else none
  | none =>
  match dropCI ("search".tx) l with
  | some rest => if boundaryR rest then some rest else none
  | none =>
  match dropCI ("show".tx) l with
  | some rest => if boundaryR rest then some rest else none
  | none =>
  match dropCI ("get".tx) l with
  | some rest => if boundaryR rest then some rest else none
  | none =>
  match dropCI ("need".tx) l with
  | some rest => if boundaryR rest then some rest else none
  | none =>
  match dropCI ("want".tx) l with
  | some rest => if boundaryR rest then some rest else none
  | none =>
  match dropCI ("looking".tx) l with
  | some r =>
      if 1 ≤ wsRun r then
        match dropCI ("for".tx) (dropWs r) with
        | some rest => if boundaryR rest then some rest else none
        | none => none
      else none
  | none => none

/-- The verb-deletion substitution pass (empty replacement; the scan resumes
after each deleted verb with the verb's last original character as the
left-boundary context — always a letter); fueled structurally, `t.length`
sufficing. -/
def subVerbsF : Nat → Option Nat → Txt → Txt
  | 0, _, t => t
  | fuel + 1, prev, t =>
      match t with
      | [] => []
      | c :: cs =>
          if boundaryL prev then
            match verbDeleteAt (c :: cs) with
            | some rest =>
                subVerbsF fuel ((c :: cs).take ((c :: cs).length - rest.length)).getLast? rest
            | none => c :: subVerbsF fuel (some c) cs
          else c :: subVerbsF fuel (some c) cs

def subVerbs (t : Txt) : Txt := subVerbsF t.length none t

/-- `re.sub(r"\s+", " ", text)`: collapse every whitespace run to one
space. -/
def collapseWsF : Nat → Txt → Txt
  | 0, t => t
  | fuel + 1, t =>
      match t with
      | [] => []
      | c :: cs =>
          if isWsc c then 32 :: collapseWsF fuel (dropWs cs)
          else c :: collapseWsF fuel cs

def collapseWs (t : Txt) : Txt := collapseWsF t.length t

/-- `_normalize_product` (lines 238-242): delete filler verbs, collapse
whitespace, strip. -/
def normalizeProduct (p : Txt) : Txt := stript (collapseWs (subVerbs p))

/-- The keyword alternation of `PRICE_PHRASE_RE`
`(?:under|below|less\s*than|over|above|more\s*than|at\s*least|between|from)`
followed by `\b` (pairwise exclusive at a position). -/
def pricePhraseKwAt (l : Txt) : Bool :=
  (firstSome ["under".tx, "below".tx, "over".tx, "above".tx, "between".tx, "from".tx]
    (fun w =>
      match dropCI w l with
      | some rest => if boundaryR rest then some () else none
      | none => none)).isSome
  || (match dropCI ("less".tx) l with
      | some r =>
          (match dropCI ("than".tx) (dropWs r) with
           | some rest => boundaryR rest
           | none => false)
      | none => false)
  || (match dropCI ("more".tx) l with
      | some r =>
          (match dropCI ("than".tx) (dropWs r) with
           | some rest => boundaryR rest
           | none => false)
      | none => false)
  || (match dropCI ("at".tx) l with
      | some r =>
          (match dropCI ("least".tx) (dropWs r) with
           | some rest => boundaryR rest
           | none => false)
      | none => false)

/-- `_strip_price_phrases` (lines 244-246):
`PRICE_PHRASE_RE.sub("", p)` removes from the leftmost position where
`\s*KEYWORD\b` begins through the end (`.*$`), then the caller's result is
stripped.  Its only call site feeds it `_normalize_product` output, which
contains no newline, so the single-line behaviour of `.`/`$` is exact. -/
def sppScan : Txt → Txt
  | [] => []
  | c :: cs => if pricePhraseKwAt (dropWs (c :: cs)) then [] else c :: sppScan cs

def stripPricePhrases (p : Txt) : Txt := stript (sppScan p)

/-- `CATEGORY_KEYWORDS` (lines 138-144), in declaration order. -/
def categoryTable : List (Txt × List Txt) :=
  [("shoes".tx, ["shoe".tx, "shoes".tx, "sneaker".tx, "sneakers".tx,
                 "heels".tx, "sandals".tx, "boots".tx]),
   ("laptops".tx, ["laptop".tx, "notebook".tx, "macbook".tx, "chromebook".tx]),
   ("phones".tx, ["phone".tx, "smartphone".tx, "iphone".tx, "android".tx]),
   ("tshirts".tx, ["t-shirt".tx, "t shirt".tx, "tee".tx, "tees".tx]),
   ("beverages".tx, ["milo".tx, "coke".tx, "pepsi".tx, "coffee".tx,
                     "tea".tx, "juice".tx, "soda".tx])]

/-- Python `kw in s` substring test (exact characters). -/
def hasSub (hay pat : Txt) : Bool :=
  match hay with
  | [] => pat.isEmpty
  | _ :: t => pat.isPrefixOf hay || hasSub t pat

/-- `_infer_category` (lines 253-260): the first category of the table one
of whose keywords occurs in the lowercased product string. -/
def inferCategory (product : Txt) : Option Txt :=
  firstSome categoryTable (fun e =>
    if e.2.any (fun kw => hasSub (lowt product) kw) then some e.1 else none)

/-- `_currency_code` (lines 248-251): strip, lower, look up in
`CURRENCY_WORDS` (lines 153-158; written here as one branch per currency,
mirroring the table's one-line-per-currency layout). -/
def currencyCode (c : Txt) : Option Txt :=
  let k := lowt (stript c)
  if k = "dollar".tx ∨ k = "dollars".tx ∨ k = "$".tx ∨ k = "usd".tx then some ("USD".tx)
  else if k = "rupee".tx ∨ k = "rupees".tx ∨ k = "rs".tx ∨ k = "lkr".tx then some ("LKR".tx)
  else if k = "euro".tx ∨ k = "euros".tx ∨ k = "€".tx ∨ k = "eur".tx then some ("EUR".tx)
  else if k = "gbp".tx ∨ k = "pound".tx ∨ k = "pounds".tx ∨ k = "£".tx then some ("GBP".tx)
  else none

/-- `CURRENCY_SYMBOL_FOR` (line 159). -/
def currencySymbolFor : List (Txt × Txt) :=
  [("USD".tx, "$".tx), ("LKR".tx, "Rs".tx), ("EUR".tx, "€".tx), ("GBP".tx, "£".tx)]

/-- The currency-slot normalization used at lines 499-504 and again at
lines 551-554: if the token has a code, replace it by the code's display
symbol (`CURRENCY_SYMBOL_FOR.get(code, old)`); otherwise leave it. -/
def normCurrencyTok (c : Txt) : Txt :=
  match currencyCode c with
  | some code =>
      match currencySymbolFor.lookup code with
      | some sym => sym
      | none => c
  | none => c

/-! ### Data model: slot set, match group dictionary, validated clarifier
output (spec section 3; processor.py lines 355-373, 422, 630-649) -/

/-- The slot dictionary of `process_query`, one field per recognized slot
name; `none` models key absence. -/
structure Slots where
  raw : Txt := []
  product : Option Txt := none
  brand : Option Txt := none
  color : Option Txt := none
  size : Option Txt := none
  qty : Option Int := none
  uom : Option Txt := none
  price_min : Option ℚ := none
  price_max : Option ℚ := none
  price_limit : Option ℚ := none
  currency : Option Txt := none
  category : Option Txt := none
deriving DecidableEq

/-- `m.groupdict()` of an intent match: the named groups that appear in the
intent patterns.  (No intent pattern defines `price_max`, `price_min`,
`cur1`, `cur2`, `color` or `size` groups, but `process_query` lines 473-482
reads them with `.get`, so they are part of the merge interface.) -/
structure Gd where
  qty_num : Option Txt := none
  uom : Option Txt := none
  product : Option Txt := none
  brand : Option Txt := none
  color : Option Txt := none
  size : Option Txt := none
  price_max : Option Txt := none
  price_min : Option Txt := none
  cur1 : Option Txt := none
  cur2 : Option Txt := none
deriving DecidableEq

/-- The output of `_validate_structured` (lines 355-373) on the clarifier's
parsed JSON: only well-typed fields survive (`intent`/`category` already
stripped and lowercased, prices coerced to float).  An empty value models
`_clarify_with_llm` contributing nothing (failure or empty parse). -/
structure Clarified where
  brand : Option Txt := none
  product : Option Txt := none
  price_limit : Option ℚ := none
  price_max : Option ℚ := none
  price_min : Option ℚ := none
  intent : Option Txt := none
  category : Option Txt := none
  currency : Option Txt := none
deriving DecidableEq

/-- Python truthiness of the validated dict (`if clarified:` line 522):
empty iff no field present. -/
def Clarified.isEmpty (c : Clarified) : Bool :=
  c.brand.isNone && c.product.isNone && c.price_limit.isNone &&
  c.price_max.isNone && c.price_min.isNone && c.intent.isNone &&
  c.category.isNone && c.currency.isNone

/-! ### `_detect` (lines 378-384): ordered first-match over
`INTENT_PATTERNS` (dict insertion order). -/

/-- `_detect`: the first pattern that matches wins; returns the intent tag
and the named-group dictionary of its match (`none` when nothing matched).
`greeting`, `show_cart` and `checkout` have no named groups. -/
def detect (t : Txt) : Txt × Option Gd :=
  if greetingMatch t then ("greeting".tx, some {})
  else
    match searchMatch t with
    | some (p, b) => ("search_product".tx, some { product := some p, brand := b })
    | none =>
      match addMatch t with
      | some (q, u, p) =>
          ("add_to_cart".tx, some { qty_num := q, uom := u, product := some p })
      | none =>
        match removeMatch t with
        | some p => ("remove_from_cart".tx, some { product := some p })
        | none =>
          if showCartMatch t then ("show_cart".tx, some {})
          else if checkoutMatch t then ("checkout".tx, some {})
          else ("unknown".tx, none)

/-! ### Pipeline stages of `process_query` (lines 389-649) -/

/-- Python truthiness filter on an optional capture (`if gd.get(k):`). -/
def optTruthy (o : Option Txt) : Option Txt :=
  match o with
  | some c => if c = [] then none else some c
  | none => none

/-- Truthy capture, lowercased (`gd[k].lower()`). -/
def optTruthyLower (o : Option Txt) : Option Txt := (optTruthy o).map lowt

/-- Step 3 (lines 426-434): independent whole-text scans for color, size and
brand; each first match is stored lowercased. -/
def attrStep (t : Txt) (s : Slots) : Slots :=
  { s with
    color := ((colorSearch t).map lowt).orElse (fun _ => s.color)
    size := ((sizeSearch t).map lowt).orElse (fun _ => s.size)
    brand := ((brandSearch t).map lowt).orElse (fun _ => s.brand) }

/-- Step 4a (lines 438-447): the between/from shape sets each bound that
parses, and records a currency token whenever either group captured one. -/
def betweenStep (t : Txt) (s : Slots) : Slots :=
  match priceBetween t with
  | none => s
  | some (c1, v1, c2, v2) =>
      let s1 := match toFloat v1 with
        | some mn => { s with price_min := some mn }
        | none => s
      let s2 := match toFloat v2 with
        | some mx => { s1 with price_max := some mx }
        | none => s1
      if c1.isSome || c2.isSome then { s2 with currency := c1.orElse (fun _ => c2) }
      else s2

/-- Step 4b (lines 449-454): the under shape runs only when `price_max` is
still unset; the currency token is recorded only when the value parses. -/
def underStep (t : Txt) (s : Slots) : Slots :=
  if s.price_max.isSome then s
  else
    match priceUnder t with
    | none => s
    | some (c, v) =>
        match toFloat v with
        | none => s
        | some val =>
            let s1 := { s with price_max := some val }
            match c with
            | some cu => { s1 with currency := some cu }
            | none => s1

/-- Step 4c (lines 456-461): the over shape, symmetric on `price_min`. -/
def overStep (t : Txt) (s : Slots) : Slots :=
  if s.price_min.isSome then s
  else
    match priceOver t with
    | none => s
    | some (c, v) =>
        match toFloat v with
        | none => s
        | some val =>
            let s1 := { s with price_min := some val }
            match c with
            | some cu => { s1 with currency := some cu }
            | none => s1

/-- Global price extraction: the three shapes in the fixed source order
between, under, over. -/
def priceSteps (t : Txt) (s : Slots) : Slots :=
  overStep t (underStep t (betweenStep t s))

/-- Lines 466-471: quantity and unit, only for `add_to_cart`. -/
def applyGdQty (intent : Txt) (gd : Gd) (s : Slots) : Slots :=
  if intent = "add_to_cart".tx then
    { s with
      qty := (gd.qty_num.bind toInt).orElse (fun _ => s.qty)
      uom := (optTruthyLower gd.uom).orElse (fun _ => s.uom) }
  else s

/-- Lines 473-476: a price captured inside the intent pattern overwrites the
globally extracted one. -/
def applyGdPrice (gd : Gd) (s : Slots) : Slots :=
  { s with
    price_max := (gd.price_max.bind toFloat).orElse (fun _ => s.price_max)
    price_min := (gd.price_min.bind toFloat).orElse (fun _ => s.price_min) }

/-- Lines 477-478: `cur1` then `cur2` are written in sequence, so `cur2`
wins when both are present. -/
def applyGdCur (gd : Gd) (s : Slots) : Slots :=
  { s with currency :=
      (optTruthy gd.cur2).orElse (fun _ => (optTruthy gd.cur1).orElse (fun _ => s.currency)) }

/-- Lines 480-482: pattern-captured color/size/brand, lowercased. -/
def applyGdAttr (gd : Gd) (s : Slots) : Slots :=
  { s with
    color := (optTruthyLower gd.color).orElse (fun _ => s.color)
    size := (optTruthyLower gd.size).orElse (fun _ => s.size)
    brand := (optTruthyLower gd.brand).orElse (fun _ => s.brand) }

/-- Lines 484-488: a truthy product capture is normalized, stripped of price
phrases, and stored (possibly becoming empty). -/
def applyGdProduct (gd : Gd) (s : Slots) : Slots :=
  let cleaned := (optTruthy gd.product).map (fun p => stripPricePhrases (normalizeProduct p))
  { s with product := cleaned.orElse (fun _ => s.product) }

/-- Step 5 (lines 463-488): intent-specific slot extraction from the match's
named groups; a no-op when no pattern matched. -/
def applyIntentGroups (intent : Txt) (ogd : Option Gd) (s : Slots) : Slots :=
  match ogd with
  | none => s
  | some gd =>
      applyGdProduct gd (applyGdAttr gd (applyGdCur gd (applyGdPrice gd (applyGdQty intent gd s))))

/-- Step 7 (lines 493-497): category inference when a product slot exists.
(Step 6, the spaCy `_ner_pass`, is a no-op under the default configuration
`QP_USE_SPACY=0`, where `_nlp is None`.) -/
def categoryStep (s : Slots) : Slots :=
  match s.product with
  | some p =>
      match inferCategory p with
      | some cat => { s with category := some cat }
      | none => s
  | none => s

/-- Step 8 (lines 499-504): currency-slot normalization. -/
def currencyStep (s : Slots) : Slots :=
  match s.currency with
  | some c => { s with currency := some (normCurrencyTok c) }
  | none => s

/-- Lines 506-507: the `price_limit` convenience alias, computed before the
clarifier merge and before the min/max collapse. -/
def aliasStep (s : Slots) : Slots :=
  if s.price_max.isSome ∧ s.price_min = none then { s with price_limit := s.price_max }
  else s

/-- The clarifier intent synonym table (lines 527-531), applied through
`.get(ci, ci)`. -/
def intentMap (i : Txt) : Txt :=
  if i = "buy".tx then "search_product".tx
  else if i = "purchase".tx then "search_product".tx
  else if i = "order".tx then "add_to_cart".tx
  else i

/-- Lines 532-542: the matcher's intent is replaced by the (lowercased,
synonym-normalized) clarifier intent only when it was `unknown`. -/
def mergeIntent (intent : Txt) (cl : Clarified) : Txt :=
  match cl.intent with
  | some ci => if intent = "unknown".tx then intentMap (lowt ci) else intent
  | none => intent

/-- Lines 544-549: every clarifier field among product, brand, category,
price_min, price_max, currency is written into the slot set, overwriting
any value already there. -/
def mergeSlotFields (s : Slots) (cl : Clarified) : Slots :=
  { s with
    product := cl.product.orElse (fun _ => s.product)
    brand := cl.brand.orElse (fun _ => s.brand)
    category := cl.category.orElse (fun _ => s.category)
    price_min := cl.price_min.orElse (fun _ => s.price_min)
    price_max := cl.price_max.orElse (fun _ => s.price_max)
    currency := cl.currency.orElse (fun _ => s.currency) }

/-- Lines 556-559: category re-inference after the merge when it is still
unset and a product is available. -/
def mergeRecat (s : Slots) : Slots :=
  if s.category = none then
    match s.product with
    | some p =>
        match inferCategory p with
        | some cat => { s with category := some cat }
        | none => s
    | none => s
  else s

/-- Step 10 (lines 519-559): the clarifier merge.  `USE_LLM` is hardcoded
`True` (line 18), so the pass always runs; a falsy (empty) validated dict
leaves everything unchanged; the post-merge currency normalization
(lines 551-554) repeats the step-8 logic. -/
def mergeClarified (intent : Txt) (s : Slots) (cl : Clarified) : Txt × Slots :=
  if cl.isEmpty then (intent, s)
  else (mergeIntent intent cl, mergeRecat (currencyStep (mergeSlotFields s cl)))

/-- Lines 570-571: the cosmetic collapse of numerically equal bounds. -/
def collapseStep (s : Slots) : Slots :=
  match s.price_min, s.price_max with
  | some a, some b => if a = b then { s with price_min := none } else s
  | _, _ => s

/-- The pipeline from the intent-specific extraction to the final slot set:
steps 5, 7, 8, the alias, the clarifier merge and the collapse, in source
order. -/
def pipelineTail (intent : Txt) (ogd : Option Gd) (s : Slots) (cl : Clarified) :
    Txt × Slots :=
  let s6 := aliasStep (currencyStep (categoryStep (applyIntentGroups intent ogd s)))
  let m := mergeClarified intent s6 cl
  (m.1, collapseStep m.2)

/-! ### Reply composer and confidence (lines 573-649) -/

/-- Decimal digits of a natural number. -/
def natRepr (n : Nat) : Txt := (toString n).tx

/-- Python `str(int)` for the quantities reachable here. -/
def intRepr (n : Int) : Txt :=
  if n < 0 then 45 :: natRepr n.natAbs else natRepr n.natAbs

/-- Fractional decimal digits of `q - ⌊q⌋`, up to `fuel` places (Python's
`repr(float)` prints the shortest rereadable decimal; every price reached
by the claims is a terminating decimal, rendered exactly). -/
def fracDigits (fuel : Nat) (num den : Nat) : Txt :=
  match fuel with
  | 0 => []
  | fuel + 1 =>
      if num = 0 then []
      else
        let d := num * 10 / den
        (48 + d) :: fracDigits fuel (num * 10 % den) den

/-- Python float formatting (`f"{x}"`) of the non-negative terminating
decimals reachable here: integral values print with a trailing `.0`. -/
def floatRepr (q : ℚ) : Txt :=
  let whole := q.num.natAbs / q.den
  let rest := q.num.natAbs % q.den
  if rest = 0 then natRepr whole ++ ".0".tx
  else natRepr whole ++ ".".tx ++ fracDigits 17 rest q.den

/-- `", ".join(bits)`. -/
def joinComma : List Txt → Txt
  | [] => []
  | [b] => b
  | b :: bs => b ++ ", ".tx ++ joinComma bs

/-- Optional slot as a singleton bit list. -/
def bitOf (o : Option Txt) : List Txt :=
  match o with | some v => [v] | none => []

/-- Step 12 (lines 573-609): one reply template per intent, with the
`unknown` fallback. -/
def composeReply (intent : Txt) (s : Slots) : Txt :=
  if intent = "greeting".tx then
    "Hi! Try: 'find Nike shoes under $100', 'add 2 packs of Milo', 'show cart', or 'checkout'.".tx
  else if intent = "search_product".tx then
    let p := s.product.getD ("the item".tx)
    let cur := s.currency.getD ("$".tx)
    let bits := bitOf s.brand ++ bitOf s.color ++ bitOf s.size
      ++ (match s.price_min with
          | some v => ["over ".tx ++ cur ++ floatRepr v]
          | none => [])
      ++ (match s.price_max with
          | some v => ["under ".tx ++ cur ++ floatRepr v]
          | none => [])
    let suffix := if bits = [] then [] else " (".tx ++ joinComma bits ++ ")".tx
    "Searching for ".tx ++ p ++ suffix ++ "…".tx
  else if intent = "add_to_cart".tx then
    let uomBit := match s.uom with | some u => " ".tx ++ u | none => []
    "Adding ".tx ++ intRepr (s.qty.getD 1) ++ uomBit ++ " of ".tx
      ++ s.product.getD ("item".tx) ++ " to your cart…".tx
  else if intent = "remove_from_cart".tx then
    "Removing ".tx ++ s.product.getD ("that item".tx) ++ " from your cart…".tx
  else if intent = "show_cart".tx then "Here's what's in your cart…".tx
  else if intent = "checkout".tx then "Proceeding to checkout…".tx
  else "Sorry, I didn't understand that.".tx

/-- The recognized-intent set of the confidence rule (lines 611-613). -/
def recognizedIntents : List Txt :=
  ["add_to_cart".tx, "remove_from_cart".tx, "search_product".tx,
   "show_cart".tx, "checkout".tx, "greeting".tx]

/-- Lines 611-615: 0.9 for a recognized intent, 0.3 otherwise, raised to
0.8 when the clarifier contributed and the value is below 0.8.
`round(confidence, 2)` (line 632) is the identity on 0.3, 0.8 and 0.9. -/
def confidenceOf (intent : Txt) (llmUsed : Bool) : ℚ :=
  let c : ℚ := if intent ∈ recognizedIntents then 9/10 else 3/10
  if llmUsed ∧ c < 8/10 then 8/10 else c

/-- The result record of `process_query` (lines 630-649).  `action.params`
is the same object as `slots`; the `agent_metadata` block is logging
metadata and is omitted. -/
structure Result where
  intent : Txt
  confidence : ℚ
  slots : Slots
  reply : Txt
  userId : Option Txt
  locale : Txt
  llmUsed : Bool

/-- `process_query(text, user_id, locale)` with the validated clarifier
output `cl` passed explicitly (the collaborator boundary).  The default
`locale="en-US"` and the `locale or "en-US"` fallback of line 637 mean a
missing or empty locale becomes `"en-US"`. -/
def processQuery (text : Txt) (userId : Option Txt) (locale : Option Txt)
    (cl : Clarified) : Result :=
  let t := fixTerms (sanitize text)
  let det := detect t
  let core := pipelineTail det.1 det.2 (priceSteps t (attrStep t { raw := t })) cl
  { intent := core.1
    confidence := confidenceOf core.1 (!cl.isEmpty)
    slots := core.2
    reply := composeReply core.1 core.2
    userId := userId
    locale := match locale with
      | none => "en-US".tx
      | some l => if l = [] then "en-US".tx else l
    llmUsed := !cl.isEmpty }

/-! ### Stage-projection lemmas used by the claim theorems -/

theorem orElse_some (a : α) (f : Unit → Option α) : (some a).orElse f = some a := rfl

theorem orElse_none (f : Unit → Option α) : (none : Option α).orElse f = f () := rfl

theorem categoryStep_price_max (s : Slots) : (categoryStep s).price_max = s.price_max := by
  unfold categoryStep
  cases s.product with
  | none => rfl
  | some p => dsimp only; cases inferCategory p <;> rfl

theorem categoryStep_price_min (s : Slots) : (categoryStep s).price_min = s.price_min := by
  unfold categoryStep
  cases s.product with
  | none => rfl
  | some p => dsimp only; cases inferCategory p <;> rfl

theorem currencyStep_price_max (s : Slots) : (currencyStep s).price_max = s.price_max := by
  unfold currencyStep; cases s.currency <;> dsimp only <;> rfl

theorem currencyStep_price_min (s : Slots) : (currencyStep s).price_min = s.price_min := by
  unfold currencyStep; cases s.currency <;> dsimp only <;> rfl

theorem currencyStep_brand (s : Slots) : (currencyStep s).brand = s.brand := by
  unfold currencyStep; cases s.currency <;> dsimp only <;> rfl

theorem currencyStep_product (s : Slots) : (currencyStep s).product = s.product := by
  unfold currencyStep; cases s.currency <;> dsimp only <;> rfl

theorem currencyStep_category (s : Slots) : (currencyStep s).category = s.category := by
  unfold currencyStep; cases s.currency <;> dsimp only <;> rfl

theorem currencyStep_currency (s : Slots) :
    (currencyStep s).currency = s.currency.map normCurrencyTok := by
  unfold currencyStep
  cases hc : s.currency <;> simp [hc]

theorem aliasStep_price_max (s : Slots) : (aliasStep s).price_max = s.price_max := by
  unfold aliasStep; split <;> rfl

theorem aliasStep_price_min (s : Slots) : (aliasStep s).price_min = s.price_min := by
  unfold aliasStep; split <;> rfl

theorem collapseStep_price_max (s : Slots) : (collapseStep s).price_max = s.price_max := by
  unfold collapseStep
  cases h1 : s.price_min <;> cases h2 : s.price_max <;> dsimp only <;>
    (try split) <;> simp [h1, h2]

theorem collapseStep_brand (s : Slots) : (collapseStep s).brand = s.brand := by
  unfold collapseStep
  cases h1 : s.price_min <;> cases h2 : s.price_max <;> dsimp only <;>
    (try split) <;> simp [h1, h2]

theorem collapseStep_product (s : Slots) : (collapseStep s).product = s.product := by
  unfold collapseStep
  cases h1 : s.price_min <;> cases h2 : s.price_max <;> dsimp only <;>
    (try split) <;> simp [h1, h2]

theorem collapseStep_category (s : Slots) : (collapseStep s).category = s.category := by
  unfold collapseStep
  cases h1 : s.price_min <;> cases h2 : s.price_max <;> dsimp only <;>
    (try split) <;> simp [h1, h2]

theorem collapseStep_currency (s : Slots) : (collapseStep s).currency = s.currency := by
  unfold collapseStep
  cases h1 : s.price_min <;> cases h2 : s.price_max <;> dsimp only <;>
    (try split) <;> simp [h1, h2]

theorem mergeRecat_price_max (s : Slots) : (mergeRecat s).price_max = s.price_max := by
  unfold mergeRecat
  split
  · cases s.product with
    | none => rfl
    | some p => dsimp only; cases inferCategory p <;> rfl
  · rfl

theorem mergeRecat_price_min (s : Slots) : (mergeRecat s).price_min = s.price_min := by
  unfold mergeRecat
  split
  · cases s.product with
    | none => rfl
    | some p => dsimp only; cases inferCategory p <;> rfl
  · rfl

theorem mergeRecat_brand (s : Slots) : (mergeRecat s).brand = s.brand := by
  unfold mergeRecat
  split
  · cases s.product with
    | none => rfl
    | some p => dsimp only; cases inferCategory p <;> rfl
  · rfl

theorem mergeRecat_product (s : Slots) : (mergeRecat s).product = s.product := by
  unfold mergeRecat
  split
  · cases hp : s.product with
    | none => simp [hp]
    | some p =>
        dsimp only
        cases inferCategory p <;> simp [hp]
  · rfl

theorem mergeRecat_currency (s : Slots) : (mergeRecat s).currency = s.currency := by
  unfold mergeRecat
  split
  · cases s.product with
    | none => rfl
    | some p => dsimp only; cases inferCategory p <;> rfl
  · rfl

theorem mergeRecat_category_of_some (s : Slots) (v : Txt) (h : s.category = some v) :
    (mergeRecat s).category = some v := by
  unfold mergeRecat
  rw [if_neg (by simp [h])]
  exact h

/-- A clarifier dict holding any field is truthy. -/
theorem Clarified.not_isEmpty_of_brand (cl : Clarified) (v : Txt) (h : cl.brand = some v) :
    cl.isEmpty = false := by simp [Clarified.isEmpty, h]

theorem Clarified.not_isEmpty_of_intent (cl : Clarified) (v : Txt) (h : cl.intent = some v) :
    cl.isEmpty = false := by simp [Clarified.isEmpty, h]

/-- `process_query` result projections (definitional repackaging of
`processQuery`). -/
theorem pq_intent (text : Txt) (uid loc : Option Txt) (cl : Clarified) :
    (processQuery text uid loc cl).intent
      = (pipelineTail (detect (fixTerms (sanitize text))).1
          (detect (fixTerms (sanitize text))).2
          (priceSteps (fixTerms (sanitize text))
            (attrStep (fixTerms (sanitize text)) { raw := fixTerms (sanitize text) })) cl).1 := rfl

theorem pq_confidence (text : Txt) (uid loc : Option Txt) (cl : Clarified) :
    (processQuery text uid loc cl).confidence
      = confidenceOf (processQuery text uid loc cl).intent (!cl.isEmpty) := rfl

theorem pq_reply (text : Txt) (uid loc : Option Txt) (cl : Clarified) :
    (processQuery text uid loc cl).reply
      = composeReply (processQuery text uid loc cl).intent (processQuery text uid loc cl).slots := rfl

theorem pipelineTail_fst (intent : Txt) (ogd : Option Gd) (s : Slots) (cl : Clarified) :
    (pipelineTail intent ogd s cl).1
      = (mergeClarified intent
          (aliasStep (currencyStep (categoryStep (applyIntentGroups intent ogd s)))) cl).1 := rfl

theorem mergeClarified_fst_of_empty (intent : Txt) (s : Slots) (cl : Clarified)
    (h : cl.isEmpty = true) : (mergeClarified intent s cl).1 = intent := by
  unfold mergeClarified; simp [h]

theorem mergeClarified_fst_of_ne (intent : Txt) (s : Slots) (cl : Clarified)
    (h : intent ≠ "unknown".tx) : (mergeClarified intent s cl).1 = intent := by
  unfold mergeClarified mergeIntent
  split
  · rfl
  · cases cl.intent with
    | none => rfl
    | some ci => simp [h]

theorem composeReply_unknown (s : Slots) :
    composeReply ("unknown".tx) s = "Sorry, I didn't understand that.".tx := by
  unfold composeReply
  rw [if_neg (by decide), if_neg (by decide), if_neg (by decide), if_neg (by decide),
      if_neg (by decide), if_neg (by decide)]

theorem confidenceOf_bounds (i : Txt) (b : Bool) :
    0 ≤ confidenceOf i b ∧ confidenceOf i b ≤ 1 := by
  unfold confidenceOf
  cases b <;> split_ifs <;> norm_num

theorem confidenceOf_mem (i : Txt) (b : Bool) (h : i ∈ recognizedIntents) :
    confidenceOf i b = 9/10 := by
  simp only [confidenceOf, if_pos h]
  norm_num

theorem confidenceOf_true_ge (i : Txt) : 8/10 ≤ confidenceOf i true := by
  unfold confidenceOf
  split_ifs <;> norm_num

theorem underStep_price_min (t : Txt) (s : Slots) :
    (underStep t s).price_min = s.price_min := by
  unfold underStep
  split
  · rfl
  · cases priceUnder t with
    | none => rfl
    | some p =>
        obtain ⟨c, v⟩ := p
        dsimp only
        cases toFloat v with
        | none => rfl
        | some val => cases c <;> rfl

theorem overStep_price_max (t : Txt) (s : Slots) :
    (overStep t s).price_max = s.price_max := by
  unfold overStep
  split
  · rfl
  · cases priceOver t with
    | none => rfl
    | some p =>
        obtain ⟨c, v⟩ := p
        dsimp only
        cases toFloat v with
        | none => rfl
        | some val => cases c <;> rfl

theorem underStep_of_isSome (t : Txt) (s : Slots) (h : s.price_max ≠ none) :
    underStep t s = s := by
  obtain ⟨x, hx⟩ := Option.ne_none_iff_exists'.mp h
  simp [underStep, hx]

theorem overStep_of_isSome (t : Txt) (s : Slots) (h : s.price_min ≠ none) :
    overStep t s = s := by
  obtain ⟨x, hx⟩ := Option.ne_none_iff_exists'.mp h
  simp [overStep, hx]

/-! ## The claims -/

/-- C1, counterexample.  On `"find nike shoes"` the pattern pass sets
`brand = "nike"`, yet a clarifier result proposing `brand = "adidas"` ends
up in the final slots: the merge at lines 544-549 overwrites a slot that was
already present, contradicting the claim that enrichment writes only into
unset slots. -/
theorem C1_counterexample :
    (processQuery ("find nike shoes".tx) none none
        { brand := some ("adidas".tx) }).slots.brand = some ("adidas".tx)
      ∧ (processQuery ("find nike shoes".tx) none none {}).slots.brand = some ("nike".tx)
      ∧ ("adidas".tx : Txt) ≠ "nike".tx := by
  decide

/-- C1, amended.  The enrichment merge adopts the clarifier's intent only
when the matcher's intent was `"unknown"` (a non-`unknown` intent is never
replaced), and an empty clarifier changes nothing; but the slot fields are
not protected: each of product, brand, category, price_min, price_max and
currency provided by the clarifier overwrites the pipeline's value
unconditionally, whether or not the slot was already set (currency being
re-normalized after adoption). -/
theorem C1_theorem (intent : Txt) (s : Slots) (cl : Clarified) :
    (cl.isEmpty = true → mergeClarified intent s cl = (intent, s)) ∧
    (∀ ci, cl.intent = some ci → intent ≠ "unknown".tx →
      (mergeClarified intent s cl).1 = intent) ∧
    (∀ ci, cl.intent = some ci → intent = "unknown".tx →
      (mergeClarified intent s cl).1 = intentMap (lowt ci)) ∧
    (cl.intent = none → (mergeClarified intent s cl).1 = intent) ∧
    (∀ v, cl.brand = some v → (mergeClarified intent s cl).2.brand = some v) ∧
    (∀ v, cl.product = some v → (mergeClarified intent s cl).2.product = some v) ∧
    (∀ v, cl.category = some v → (mergeClarified intent s cl).2.category = some v) ∧
    (∀ v, cl.price_min = some v → (mergeClarified intent s cl).2.price_min = some v) ∧
    (∀ v, cl.price_max = some v → (mergeClarified intent s cl).2.price_max = some v) ∧
    (∀ v, cl.currency = some v →
      (mergeClarified intent s cl).2.currency = some (normCurrencyTok v)) := by
  refine ⟨?_, ?_, ?_, ?_, ?_, ?_, ?_, ?_, ?_, ?_⟩
  · intro h; unfold mergeClarified; simp [h]
  · intro ci h hne
    have hE : cl.isEmpty = false := by simp [Clarified.isEmpty, h]
    unfold mergeClarified mergeIntent
    simp [hE, h, hne]
  · intro ci h heq
    have hE : cl.isEmpty = false := by simp [Clarified.isEmpty, h]
    unfold mergeClarified mergeIntent
    simp [hE, h, heq]
  · intro h
    unfold mergeClarified mergeIntent
    split
    · rfl
    · simp [h]
  · intro v h
    have hE : cl.isEmpty = false := by simp [Clarified.isEmpty, h]
    unfold mergeClarified
    rw [if_neg (by simp [hE])]
    rw [mergeRecat_brand, currencyStep_brand]
    simp [mergeSlotFields, h]
  · intro v h
    have hE : cl.isEmpty = false := by simp [Clarified.isEmpty, h]
    unfold mergeClarified
    rw [if_neg (by simp [hE])]
    rw [mergeRecat_product, currencyStep_product]
    simp [mergeSlotFields, h]
  · intro v h
    have hE : cl.isEmpty = false := by simp [Clarified.isEmpty, h]
    unfold mergeClarified
    rw [if_neg (by simp [hE])]
    refine mergeRecat_category_of_some _ v ?_
    rw [currencyStep_category]
    simp [mergeSlotFields, h]
  · intro v h
    have hE : cl.isEmpty = false := by simp [Clarified.isEmpty, h]
    unfold mergeClarified
    rw [if_neg (by simp [hE])]
    rw [mergeRecat_price_min, currencyStep_price_min]
    simp [mergeSlotFields, h]
  · intro v h
    have hE : cl.isEmpty = false := by simp [Clarified.isEmpty, h]
    unfold mergeClarified
    rw [if_neg (by simp [hE])]
    rw [mergeRecat_price_max, currencyStep_price_max]
    simp [mergeSlotFields, h]
  · intro v h
    have hE : cl.isEmpty = false := by simp [Clarified.isEmpty, h]
    unfold mergeClarified
    rw [if_neg (by simp [hE])]
    rw [mergeRecat_currency, currencyStep_currency]
    simp [mergeSlotFields, h]

/-- C1 witness: the brand-overwrite clause at a concrete input. -/
theorem C1_witness :
    (mergeClarified ("search_product".tx) { raw := [], brand := some ("nike".tx) }
        { brand := some ("adidas".tx) }).2.brand = some ("adidas".tx) :=
  (C1_theorem ("search_product".tx) { raw := [], brand := some ("nike".tx) }
      { brand := some ("adidas".tx) }).2.2.2.2.1 ("adidas".tx) rfl

/-- C2, counterexample.  The `add_to_cart` pattern requires the lookahead
`(?=\s+to\s+(?:my\s*)?(?:cart|basket))`, so `"add 2 packs of Milo"` (without
"to cart") matches no intent pattern: with the clarifier contributing
nothing the result is `"unknown"`, not the claimed `"add_to_cart"`. -/
theorem C2_counterexample :
    (processQuery ("add 2 packs of Milo".tx) none none {}).intent = "unknown".tx
      ∧ ("unknown".tx : Txt) ≠ "add_to_cart".tx := by
  decide

/-- C2, amended.  With enrichment contributing nothing and the commands
phrased with the "to cart" suffix the pattern requires:
`"add 2 packs of Milo to cart"` gives intent `add_to_cart`, `qty = 2`,
`uom = "packs"`, product `"Milo"` (containing "milo" case-insensitively) and
category `"beverages"`; `"add a pair of shoes to cart"` gives `qty = 1` —
the article "a" is captured as the quantity word and maps to 1; the word
"pair" stays in the product — with product containing "shoes"; and
`"add 3 bottles of cocks to cart"` is term-fixed to "coke" and gives
`qty = 3`, `uom = "bottles"`, product containing "coke". -/
theorem C2_theorem :
    ((processQuery ("add 2 packs of Milo to cart".tx) none none {}).intent
        = "add_to_cart".tx
      ∧ (processQuery ("add 2 packs of Milo to cart".tx) none none {}).slots.qty = some 2
      ∧ (processQuery ("add 2 packs of Milo to cart".tx) none none {}).slots.uom
        = some ("packs".tx)
      ∧ hasSub (lowt ((processQuery ("add 2 packs of Milo to cart".tx) none none
          {}).slots.product.getD [])) ("milo".tx) = true
      ∧ (processQuery ("add 2 packs of Milo to cart".tx) none none {}).slots.category
        = some ("beverages".tx))
    ∧ ((processQuery ("add a pair of shoes to cart".tx) none none {}).intent
        = "add_to_cart".tx
      ∧ (processQuery ("add a pair of shoes to cart".tx) none none {}).slots.qty = some 1
      ∧ hasSub ((processQuery ("add a pair of shoes to cart".tx) none none
          {}).slots.product.getD []) ("shoes".tx) = true)
    ∧ ((processQuery ("add 3 bottles of cocks to cart".tx) none none {}).intent
        = "add_to_cart".tx
      ∧ (processQuery ("add 3 bottles of cocks to cart".tx) none none {}).slots.qty = some 3
      ∧ (processQuery ("add 3 bottles of cocks to cart".tx) none none {}).slots.uom
        = some ("bottles".tx)
      ∧ hasSub ((processQuery ("add 3 bottles of cocks to cart".tx) none none
          {}).slots.product.getD []) ("coke".tx) = true) := by
  decide

/-- C3.  When the matched intent pattern's group dictionary carries an
inline `price_max` capture that parses, that value is the one stored in
`price_max` in the final result, overwriting whatever the global price
extraction put there (the merge at lines 473-476 writes it after the global
pass; no later stage touches `price_max` when the clarifier contributes no
price).  The current `INTENT_PATTERNS` define no `price_max` group, so the
hypothesis quantifies over the match interface the merge reads with
`gd.get("price_max")`. -/
theorem C3_theorem (intent : Txt) (gd : Gd) (s : Slots) (cl : Clarified)
    (val : Txt) (v : ℚ) (h1 : gd.price_max = some val) (h2 : toFloat val = some v)
    (h3 : cl.price_max = none) :
    (pipelineTail intent (some gd) s cl).2.price_max = some v := by
  have hA : (applyIntentGroups intent (some gd) s).price_max = some v := by
    show (applyGdProduct gd (applyGdAttr gd (applyGdCur gd
        (applyGdPrice gd (applyGdQty intent gd s))))).price_max = some v
    show ((gd.price_max.bind toFloat).orElse
        (fun _ => (applyGdQty intent gd s).price_max)) = some v
    rw [h1]
    simp [Option.bind, h2, orElse_some]
  have hB : (aliasStep (currencyStep (categoryStep
      (applyIntentGroups intent (some gd) s)))).price_max = some v := by
    rw [aliasStep_price_max, currencyStep_price_max, categoryStep_price_max, hA]
  have hM : (mergeClarified intent (aliasStep (currencyStep (categoryStep
      (applyIntentGroups intent (some gd) s)))) cl).2.price_max = some v := by
    unfold mergeClarified
    split
    · exact hB
    · rw [mergeRecat_price_max, currencyStep_price_max]
      show (cl.price_max.orElse _) = some v
      rw [h3, orElse_none]
      exact hB
  show (collapseStep (mergeClarified intent (aliasStep (currencyStep (categoryStep
      (applyIntentGroups intent (some gd) s)))) cl).2).price_max = some v
  rw [collapseStep_price_max]
  exact hM

/-- C3 witness: an inline `"50"` beats a globally extracted 999. -/
theorem C3_witness :
    (pipelineTail ("search_product".tx) (some { price_max := some ("50".tx) })
        { raw := [], price_max := some 999 } {}).2.price_max = some 50 :=
  C3_theorem ("search_product".tx) { price_max := some ("50".tx) }
    { raw := [], price_max := some 999 } {} ("50".tx) 50 rfl (by decide) rfl

/-- C4.  `"find Nike shoes under $100"`, with the clarifier contributing
nothing: intent `search_product`, brand `"nike"`, product `"Nike shoes"`
(containing "shoes"), `price_max = 100.0`, currency `"$"`, category
`"shoes"`, confidence 0.9. -/
theorem C4_theorem :
    (processQuery ("find Nike shoes under $100".tx) none none {}).intent
        = "search_product".tx
      ∧ (processQuery ("find Nike shoes under $100".tx) none none {}).slots.brand
        = some ("nike".tx)
      ∧ hasSub ((processQuery ("find Nike shoes under $100".tx) none none
          {}).slots.product.getD []) ("shoes".tx) = true
      ∧ (processQuery ("find Nike shoes under $100".tx) none none {}).slots.price_max
        = some 100
      ∧ (processQuery ("find Nike shoes under $100".tx) none none {}).slots.currency
        = some ("$".tx)
      ∧ (processQuery ("find Nike shoes under $100".tx) none none {}).slots.category
        = some ("shoes".tx)
      ∧ (processQuery ("find Nike shoes under $100".tx) none none {}).confidence
        = 9/10 := by
  refine ⟨by decide, by decide, by decide, by decide, by decide, by decide, ?_⟩
  rw [pq_confidence,
    (by decide : (processQuery ("find Nike shoes under $100".tx) none none {}).intent
      = "search_product".tx)]
  exact confidenceOf_mem _ _ (by decide)

/-- C5.  Global price extraction: the three shapes run in the fixed order
between, under, over; a between match sets both bounds (each one that
parses); an under match sets `price_max` only when it is still unset and an
over match sets `price_min` only when it is still unset, so bounds set by
the between shape survive; numeric parsing strips comma separators and
applies the case-insensitive `k`/`m` suffixes (×1000 / ×1000000), with
`"under $100"` giving `price_max = 100.0` (currency `"$"`) and `"over 2k"`
giving `price_min = 2000.0`; and a captured value that fails to parse sets
no slot and the extractor returns normally. -/
theorem C5_theorem (t : Txt) (s : Slots) :
    (priceSteps t s = overStep t (underStep t (betweenStep t s))) ∧
    (∀ q, (betweenStep t s).price_max = some q → (priceSteps t s).price_max = some q) ∧
    (∀ q, (betweenStep t s).price_min = some q → (priceSteps t s).price_min = some q) ∧
    (∀ s' : Slots, s'.price_max ≠ none → underStep t s' = s') ∧
    (∀ (s' : Slots) c val v, s'.price_max = none → priceUnder t = some (c, val) →
      toFloat val = some v → (underStep t s').price_max = some v) ∧
    (∀ (s' : Slots) c val, s'.price_max = none → priceUnder t = some (c, val) →
      toFloat val = none → underStep t s' = s') ∧
    (∀ s' : Slots, s'.price_min ≠ none → overStep t s' = s') ∧
    (∀ (s' : Slots) c val v, s'.price_min = none → priceOver t = some (c, val) →
      toFloat val = some v → (overStep t s').price_min = some v) ∧
    (∀ (s' : Slots) c val, s'.price_min = none → priceOver t = some (c, val) →
      toFloat val = none → overStep t s' = s') ∧
    (∀ c1 v1 c2 v2 q1 q2, priceBetween t = some (c1, v1, c2, v2) →
      toFloat v1 = some q1 → toFloat v2 = some q2 →
      (betweenStep t s).price_min = some q1 ∧ (betweenStep t s).price_max = some q2) ∧
    (toFloat ("1,000".tx) = some 1000 ∧ toFloat ("2k".tx) = some 2000 ∧
      toFloat ("2K".tx) = some 2000 ∧ toFloat ("3m".tx) = some 3000000 ∧
      toFloat ("1.2.3".tx) = none) ∧
    ((priceSteps ("under $100".tx) { raw := [] }).price_max = some 100 ∧
      (priceSteps ("under $100".tx) { raw := [] }).currency = some ("$".tx) ∧
      (priceSteps ("over 2k".tx) { raw := [] }).price_min = some 2000) := by
  refine ⟨rfl, ?_, ?_, ?_, ?_, ?_, ?_, ?_, ?_, ?_, by decide, by decide⟩
  · intro q h
    show (overStep t (underStep t (betweenStep t s))).price_max = some q
    rw [overStep_price_max]
    rw [underStep_of_isSome t _ (by rw [h]; exact Option.some_ne_none q)]
    exact h
  · intro q h
    show (overStep t (underStep t (betweenStep t s))).price_min = some q
    rw [overStep_of_isSome t _ (by rw [underStep_price_min, h]; exact Option.some_ne_none q)]
    rw [underStep_price_min]
    exact h
  · exact fun s' h => underStep_of_isSome t s' h
  · intro s' c val v h1 h2 h3
    unfold underStep
    rw [if_neg (by simp [h1]), h2]
    dsimp only
    rw [h3]
    cases c <;> rfl
  · intro s' c val h1 h2 h3
    unfold underStep
    rw [if_neg (by simp [h1]), h2]
    dsimp only
    rw [h3]
  · exact fun s' h => overStep_of_isSome t s' h
  · intro s' c val v h1 h2 h3
    unfold overStep
    rw [if_neg (by simp [h1]), h2]
    dsimp only
    rw [h3]
    cases c <;> rfl
  · intro s' c val h1 h2 h3
    unfold overStep
    rw [if_neg (by simp [h1]), h2]
    dsimp only
    rw [h3]
  · intro c1 v1 c2 v2 q1 q2 hB hq1 hq2
    unfold betweenStep
    rw [hB]
    dsimp only
    rw [hq1, hq2]
    dsimp only
    constructor <;> split <;> rfl

/-- C5 witness: the under clause at a concrete input. -/
theorem C5_witness :
    (underStep ("under 5".tx) { raw := [] }).price_max = some 5 :=
  (C5_theorem ("under 5".tx) { raw := [] }).2.2.2.2.1 { raw := [] } none ("5".tx) 5
    rfl (by decide) (by decide)

theorem confidenceOf_unknown_false : confidenceOf ("unknown".tx) false = 3/10 := by
  unfold confidenceOf
  rw [if_neg (show ¬("unknown".tx ∈ recognizedIntents) by decide)]
  norm_num

/-- C6.  The pipeline is a total function of its input: no step of the
embedding is partial, matching the source, where `_sanitize` absorbs bad
input, extraction misses are absent slots, and both enrichment passes catch
their own failures.  When no intent pattern matches and the clarifier
contributes nothing — the worst case, which the empty and the gibberish
input reach — the result is intent `"unknown"`, confidence 0.3 and the
generic fallback reply; and re-running the pipeline on the reply text of
any result again yields a well-formed result (confidence in `[0, 1]`),
whatever the second run's clarifier does. -/
theorem C6_theorem (text : Txt) (uid loc : Option Txt) (cl : Clarified) :
    ((detect (fixTerms (sanitize text))).1 = "unknown".tx → cl.isEmpty = true →
      (processQuery text uid loc cl).intent = "unknown".tx ∧
      (processQuery text uid loc cl).confidence = 3/10 ∧
      (processQuery text uid loc cl).reply = "Sorry, I didn't understand that.".tx) ∧
    (∀ uid2 loc2 cl2,
      0 ≤ (processQuery (processQuery text uid loc cl).reply uid2 loc2 cl2).confidence ∧
      (processQuery (processQuery text uid loc cl).reply uid2 loc2 cl2).confidence ≤ 1) := by
  constructor
  · intro h1 h2
    have hI : (processQuery text uid loc cl).intent = "unknown".tx := by
      rw [pq_intent, pipelineTail_fst, h1]
      exact mergeClarified_fst_of_empty _ _ _ h2
    refine ⟨hI, ?_, ?_⟩
    · rw [pq_confidence, hI, h2]
      exact confidenceOf_unknown_false
    · rw [pq_reply, hI]
      exact composeReply_unknown _
  · intro uid2 loc2 cl2
    rw [pq_confidence]
    exact confidenceOf_bounds _ _

/-- C6 witness: the empty input reaches the worst case. -/
theorem C6_witness :
    (processQuery ("".tx) none none {}).intent = "unknown".tx ∧
    (processQuery ("".tx) none none {}).confidence = 3/10 ∧
    (processQuery ("".tx) none none {}).reply = "Sorry, I didn't understand that.".tx :=
  (C6_theorem ("".tx) none none {}).1 (by decide) (by decide)

/-- C7.  For every input: the confidence lies in `[0, 1]`; the locale is
the string `"en-US"` when the caller passes none; the confidence is 0.9
whenever the final intent is one of the six recognized intents, 0.3 when
the intent is `"unknown"` and the clarifier contributed nothing, and at
least 0.8 whenever the clarifier contributed at least one field. -/
theorem C7_theorem (text : Txt) (uid loc : Option Txt) (cl : Clarified) :
    (0 ≤ (processQuery text uid loc cl).confidence ∧
      (processQuery text uid loc cl).confidence ≤ 1) ∧
    (loc = none → (processQuery text uid loc cl).locale = "en-US".tx) ∧
    ((processQuery text uid loc cl).intent ∈ recognizedIntents →
      (processQuery text uid loc cl).confidence = 9/10) ∧
    ((processQuery text uid loc cl).intent = "unknown".tx → cl.isEmpty = true →
      (processQuery text uid loc cl).confidence = 3/10) ∧
    (cl.isEmpty = false → 8/10 ≤ (processQuery text uid loc cl).confidence) := by
  refine ⟨?_, ?_, ?_, ?_, ?_⟩
  · rw [pq_confidence]; exact confidenceOf_bounds _ _
  · intro h; subst h; rfl
  · intro h; rw [pq_confidence]; exact confidenceOf_mem _ _ h
  · intro h1 h2
    rw [pq_confidence, h1, h2]
    exact confidenceOf_unknown_false
  · intro h
    rw [pq_confidence, h]
    exact confidenceOf_true_ge _

/-- C7 witness: `"view my cart"` reaches a recognized intent, and the
missing-locale default. -/
theorem C7_witness :
    (processQuery ("view my cart".tx) none none {}).confidence = 9/10 ∧
    (processQuery ("view my cart".tx) none none {}).locale = "en-US".tx :=
  ⟨(C7_theorem ("view my cart".tx) none none {}).2.2.1 (by decide),
   (C7_theorem ("view my cart".tx) none none {}).2.1 rfl⟩

/-- C8, counterexample.  `_currency_code` only strips whitespace and
lowercases before the table lookup, so the captured token `"Rs."`
(tolerated by the `Rs\.?` capture regex) is not recognized and passes
through unchanged: on `"under Rs. 500"` the final currency slot is
`"Rs."`, not the display symbol `"Rs"` the claimed trailing-period
tolerance would produce. -/
theorem C8_counterexample :
    (processQuery ("under Rs. 500".tx) none none {}).slots.currency = some ("Rs.".tx)
      ∧ ("Rs.".tx : Txt) ≠ "Rs".tx := by
  decide

/-- C8, amended.  Currency normalization maps a recognized token — one of
the `CURRENCY_WORDS` keys, compared case-insensitively after stripping
surrounding whitespace, with no tolerance for a trailing period — to one of
the four canonical codes USD, LKR, EUR, GBP and stores that code's display
symbol (`$`, `Rs`, `€`, `£`) in the currency slot; every unrecognized
token, including `"Rs."`, passes through unchanged. -/
theorem C8_theorem (s : Slots) (c k : Txt) :
    (currencyCode c = some k →
      (k = "USD".tx ∨ k = "LKR".tx ∨ k = "EUR".tx ∨ k = "GBP".tx)) ∧
    (currencyCode c = none → normCurrencyTok c = c) ∧
    (s.currency = some c → (currencyStep s).currency = some (normCurrencyTok c)) ∧
    (s.currency = none → currencyStep s = s) ∧
    (normCurrencyTok ("Dollars".tx) = "$".tx ∧ normCurrencyTok (" usd ".tx) = "$".tx ∧
      normCurrencyTok ("rs".tx) = "Rs".tx ∧ normCurrencyTok ("LKR".tx) = "Rs".tx ∧
      normCurrencyTok ("euro".tx) = "€".tx ∧ normCurrencyTok ("£".tx) = "£".tx ∧
      normCurrencyTok ("gbp".tx) = "£".tx ∧ normCurrencyTok ("Rs.".tx) = "Rs.".tx) := by
  refine ⟨?_, ?_, ?_, ?_, by decide⟩
  · intro h
    simp only [currencyCode] at h
    split_ifs at h <;> cases h <;> decide
  · intro h
    unfold normCurrencyTok
    rw [h]
  · intro h
    rw [currencyStep_currency, h]
    rfl
  · intro h
    unfold currencyStep
    rw [h]

/-- C8 witness: the normalization clause at a concrete slot set. -/
theorem C8_witness :
    (currencyStep { raw := [], currency := some ("USD".tx) }).currency
      = some (normCurrencyTok ("USD".tx)) :=
  (C8_theorem { raw := [], currency := some ("USD".tx) } ("USD".tx) ("USD".tx)).2.2.1 rfl

/-- C9, counterexample.  On `"between 100 and 100"` both bounds are set to
100.0 when the alias step (lines 506-507) runs, so `price_limit` is not
written; the collapse (lines 570-571) then drops `price_min`.  The final
result has `price_max` set and `price_min` absent but no `price_limit`,
contradicting the claimed final-state alias invariant at exactly the input
the claim's second half cites. -/
theorem C9_counterexample :
    (processQuery ("between 100 and 100".tx) none none {}).slots.price_max = some 100
      ∧ (processQuery ("between 100 and 100".tx) none none {}).slots.price_min = none
      ∧ (processQuery ("between 100 and 100".tx) none none {}).slots.price_limit = none := by
  decide

/-- C9, amended.  The `price_limit` alias is computed at its fixed pipeline
point — after currency normalization, before the clarifier merge and the
collapse: there, if `price_max` is set and `price_min` is not, `price_limit`
is set to `price_max`, and otherwise the slot set is unchanged.  The
collapse drops `price_min` (and only it) whenever both bounds are set and
numerically equal.  Consequently a between-phrase with equal bounds, as in
`"between 100 and 100"`, ends with `price_max` only — and no `price_limit`,
since both bounds were still present when the alias step ran. -/
theorem C9_theorem (s : Slots) :
    (∀ v, s.price_max = some v → s.price_min = none → (aliasStep s).price_limit = some v) ∧
    (s.price_min ≠ none ∨ s.price_max = none → aliasStep s = s) ∧
    (∀ v, s.price_min = some v → s.price_max = some v →
      (collapseStep s).price_min = none ∧ (collapseStep s).price_max = some v ∧
      (collapseStep s).price_limit = s.price_limit) ∧
    ((processQuery ("between 100 and 100".tx) none none {}).slots.price_max = some 100 ∧
      (processQuery ("between 100 and 100".tx) none none {}).slots.price_min = none) := by
  refine ⟨?_, ?_, ?_, by decide⟩
  · intro v h1 h2
    unfold aliasStep
    rw [if_pos ⟨by simp [h1], h2⟩]
    simp [h1]
  · intro h
    unfold aliasStep
    split
    · rename_i hc
      rcases h with h | h
      · exact absurd hc.2 h
      · rw [h] at hc
        exact absurd hc.1 (by simp)
    · rfl
  · intro v h1 h2
    unfold collapseStep
    rw [h1, h2]
    dsimp only
    rw [if_pos rfl]
    exact ⟨rfl, by simp [h2], rfl⟩

/-- C9 witness: the alias clause at a concrete slot set. -/
theorem C9_witness :
    (aliasStep { raw := [], price_max := some 7 }).price_limit = some 7 :=
  (C9_theorem { raw := [], price_max := some 7 }).1 7 rfl rfl

/-- C10.  The greeting pattern is first in the ordered intent list and
anchored at the start of the text, so every sanitized, term-fixed input
that begins with a greeting word (hi, hello, hey, greetings,
good morning/afternoon/evening, up to the pattern's word boundary) is
classified `greeting` — whatever shopping command follows — and since
`greeting` is not `unknown`, no clarifier result, whatever it proposes,
replaces it. -/
theorem C10_theorem (text : Txt) (uid loc : Option Txt) (cl : Clarified)
    (h : greetingMatch (fixTerms (sanitize text)) = true) :
    (processQuery text uid loc cl).intent = "greeting".tx := by
  have hdet : (detect (fixTerms (sanitize text))).1 = "greeting".tx := by
    unfold detect
    rw [if_pos h]
  rw [pq_intent, pipelineTail_fst, hdet]
  exact mergeClarified_fst_of_ne _ _ _ (by decide)

/-- C10 witness: a complete shopping command after the greeting, and a
clarifier that proposes a different intent, still yield `greeting`. -/
theorem C10_witness :
    (processQuery ("hello, find nike shoes under $100".tx) none none
        { intent := some ("search_product".tx) }).intent = "greeting".tx :=
  C10_theorem ("hello, find nike shoes under $100".tx) none none
    { intent := some ("search_product".tx) } (by decide)
